import Mathlib

/-!
Shallow embedding of `src/url_text_fetcher/server_fastmcp.py` from the
brsearch-mcp-server repository, together with theorems settling the frozen
claims about its specification.

Python strings are modelled as `List Char` (Python indexing/slicing is by
code point, as is `List Char`).  External collaborators (the standard
library's `urlparse`, DNS resolution via `socket.gethostbyname`, the
`requests` HTTP client, and BeautifulSoup text extraction) are modelled as
oracle inputs; everything the repository's own code does with their results
is translated directly from the source.
-/

namespace BrsearchMCP

/-! ### Python string primitives (`str.lower`, `in`, `str.replace`, `str.strip`) -/

/-- ASCII lowering, as Python `str.lower` acts on the ASCII inputs that occur
in this code base. -/
def lowerChar (c : Char) : Char :=
  if 'A' ≤ c ∧ c ≤ 'Z' then Char.ofNat (c.toNat + 32) else c

/-- Python `s.lower()` on a string. -/
def lowerStr (s : List Char) : List Char := s.map lowerChar

/-- Python `s.startswith(pat)`: does `s` begin with `pat`? -/
def startsWithL : List Char → List Char → Bool
  | _, [] => true
  | [], _ :: _ => false
  | c :: cs, p :: ps => c == p && startsWithL cs ps

/-- Python's `pat in s`: does `pat` occur as a contiguous substring of `s`? -/
def hasSub : List Char → List Char → Bool
  | _, [] => true
  | [], _ :: _ => false
  | c :: cs, p :: ps => startsWithL (c :: cs) (p :: ps) || hasSub cs (p :: ps)

/-- Worker for `deleteAll`; the fuel argument (instantiated with the length of
the scanned string, which bounds the number of scan steps) keeps the
recursion structural. -/
def deleteAllAux (pat : List Char) : Nat → List Char → List Char
  | _, [] => []
  | 0, s => s
  | fuel + 1, c :: cs =>
    if !pat.isEmpty && startsWithL (c :: cs) pat then
      deleteAllAux pat fuel ((c :: cs).drop pat.length)
    else
      c :: deleteAllAux pat fuel cs

/-- Python `s.replace(pat, '')`: delete every occurrence of `pat` from `s`,
scanning left to right over non-overlapping matches. -/
def deleteAll (pat s : List Char) : List Char := deleteAllAux pat s.length s

/-- Characters removed by Python `str.strip()` (ASCII whitespace). -/
def isStripChar (c : Char) : Bool :=
  c == ' ' || c == '\t' || c == '\n' || c == '\r' || c == '\x0b' || c == '\x0c'

/-- Python `s.strip()`. -/
def stripChars (s : List Char) : List Char :=
  ((s.dropWhile isStripChar).reverse.dropWhile isStripChar).reverse

/-! ### `sanitize_query` (server_fastmcp.py lines 91-115) -/

/-- The blocklist `dangerous_patterns` of `sanitize_query`. -/
def dangerous_patterns : List (List Char) :=
  ["<script".data, "javascript:".data, "data:".data, "vbscript:".data]

/-- The function `sanitize_query`, translated line by line: empty input short-circuits;
control characters other than tab/newline/carriage-return are dropped; the
query is truncated to 500 characters; `query_lower` is computed once, and for
each pattern present in it the pattern is removed from the (original-case)
query by `str.replace`; finally the result is stripped. -/
def sanitize_query (query : List Char) : List Char :=
  if query.isEmpty then []
  else
    let q1 := query.filter (fun c => 32 ≤ c.toNat || c == '\t' || c == '\n' || c == '\r')
    let q2 := q1.take 500
    let queryLower := lowerStr q2
    let q3 := dangerous_patterns.foldl
      (fun q pat => if hasSub queryLower pat then deleteAll pat q else q) q2
    stripChars q3

end BrsearchMCP


namespace BrsearchMCP

/-! ### `is_safe_url` (server_fastmcp.py lines 136-184)

`urlparse` is an oracle: `none` models a parse failure (any exception inside
the function's `try` block falls through to `return False`); `some p` carries
the parsed scheme and the parsed hostname (`none`/empty model Python's
`not hostname`).  DNS resolution plus `ipaddress.ip_address` classification
is the oracle `resolve`. -/

/-- Classification flags of the resolved address, as computed by Python's
`ipaddress` module. -/
structure IpInfo where
  isPrivate : Bool
  isLoopback : Bool
  isLinkLocal : Bool

/-- Outcome of `socket.gethostbyname` followed by `ipaddress.ip_address`:
successful classification, `socket.gaierror`, or `ValueError`. -/
inductive ResolveOutcome where
  | resolved (ip : IpInfo)
  | dnsFailure
  | badIp

/-- The fields of `urllib.parse.urlparse(url)` that `is_safe_url` reads. -/
structure ParsedUrl where
  scheme : List Char
  hostname : Option (List Char)

/-- The `blocked_hostnames` list of `is_safe_url`. -/
def blocked_hostnames : List (List Char) :=
  ["localhost".data, "metadata.google.internal".data, "169.254.169.254".data, "metadata".data]

/-- The function `is_safe_url`, translated from the source: fail closed on parse error;
require scheme `http`/`https`; require a present, non-blocklisted hostname
(compared after `.lower()`); require successful resolution to an address that
is neither private nor loopback nor link-local. -/
def is_safe_url (parsed? : Option ParsedUrl) (resolve : List Char → ResolveOutcome) : Bool :=
  match parsed? with
  | none => false
  | some p =>
    if p.scheme ∉ ["http".data, "https".data] then false
    else
      match p.hostname with
      | none => false
      | some h =>
        if h = [] then false
        else if lowerStr h ∈ blocked_hostnames then false
        else
          match resolve h with
          | .dnsFailure => false
          | .badIp => false
          | .resolved ip => !(ip.isPrivate || ip.isLoopback || ip.isLinkLocal)

/-! ### `fetch_url_content` (server_fastmcp.py lines 186-254)

The HTTP layer is an oracle: `HttpOutcome` models the result of
`requests.get` + `raise_for_status`, and on success the response carries the
declared `Content-Length` (already converted to a number) and the stream of
events produced by `resp.iter_content`: decoded text chunks, or an exception
(`UnicodeDecodeError` / `requests.RequestException`) raised mid-iteration.
BeautifulSoup text extraction (after script/style removal) is the oracle
`extract`. -/

/-- One event of the `iter_content` iteration. -/
inductive ChunkEvent where
  | chunk (c : List Char)
  | decodeFailure
  | transportFailure
deriving DecidableEq

/-- Length contributed by an event to the cumulative size counter. -/
def evLen : ChunkEvent → Nat
  | .chunk c => c.length
  | .decodeFailure => 0
  | .transportFailure => 0

/-- Cumulative size of a list of events. -/
def chunkSum (events : List ChunkEvent) : Nat := (events.map evLen).sum

/-- Result of the streaming read loop: the collected body chunks, or an early
exit carrying the unconsumed remainder of the stream (`tooLarge` also records
the size of the buffer retained at the moment of abort). -/
inductive StreamResult where
  | body (chunks : List (List Char))
  | tooLarge (keptSize : Nat) (rest : List ChunkEvent)
  | decodeFail (rest : List ChunkEvent)
  | transportFail (rest : List ChunkEvent)
deriving DecidableEq

/-- The `for chunk in resp.iter_content(...)` loop of `fetch_url_content`:
empty chunks are skipped, the byte counter is advanced, and the loop aborts
(returning, not buffering the offending chunk) the instant the cumulative
size exceeds `ms`. -/
def readStream (ms : Nat) : List ChunkEvent → Nat → List (List Char) → StreamResult
  | [], _, kept => .body kept.reverse
  | .decodeFailure :: rest, _, _ => .decodeFail rest
  | .transportFailure :: rest, _, _ => .transportFail rest
  | .chunk c :: rest, total, kept =>
    if c.isEmpty then readStream ms rest total kept
    else if ms < total + c.length then .tooLarge total rest
    else readStream ms rest (total + c.length) (c :: kept)

/-- The string `"Error: URL not allowed for security reasons"`. -/
def errUnsafe : List Char := "Error: URL not allowed for security reasons".data

/-- The string `"Error: Unable to fetch URL content"`. -/
def errTransport : List Char := "Error: Unable to fetch URL content".data

/-- The string `"Error: An unexpected error occurred while processing the URL"`. -/
def errUnexpected : List Char :=
  "Error: An unexpected error occurred while processing the URL".data

/-- The string `"Error: Unable to decode content as text"`. -/
def errDecode : List Char := "Error: Unable to decode content as text".data

/-- The string `f"Error: Content too large ({content_length} bytes, max {MAX_RESPONSE_SIZE})"`. -/
def errTooLarge (cl ms : Nat) : List Char :=
  "Error: Content too large (".data ++ (Nat.repr cl).data ++ " bytes, max ".data
    ++ (Nat.repr ms).data ++ ")".data

/-- The string `f"Error: Content exceeded size limit ({MAX_RESPONSE_SIZE} bytes)"`. -/
def errExceeded (ms : Nat) : List Char :=
  "Error: Content exceeded size limit (".data ++ (Nat.repr ms).data ++ " bytes)".data

/-- The marker `"... [Content truncated]"`, appended after truncation to `CONTENT_LENGTH_LIMIT`. -/
def truncationMarker : List Char := "... [Content truncated]".data

/-- Outcome of `requests.get(url, ..., stream=True)` + `raise_for_status()`. -/
inductive HttpOutcome where
  | transportError
  | unexpectedError
  | ok (contentLength : Option Nat) (events : List ChunkEvent)

/-- Environment of one `fetch_url_content` call: the verdict of
`is_safe_url` on the url, the HTTP oracle, and the BeautifulSoup
text-extraction oracle. -/
structure FetchEnv where
  safe : Bool
  http : HttpOutcome
  extract : List Char → List Char

/-- Observable outcome of `fetch_url_content`: the returned string, whether
the HTTP request was issued, and how many iterator events were consumed. -/
structure FetchOut where
  result : List Char
  networkCalled : Bool
  eventsConsumed : Nat
deriving DecidableEq

/-- Final truncation of the extracted text to `CONTENT_LENGTH_LIMIT`
characters plus the marker (lines 241-244). -/
def truncateContent (limit : Nat) (text : List Char) : List Char :=
  if limit < text.length then text.take limit ++ truncationMarker else text

/-- The body-reading and text-extraction phase of `fetch_url_content`
(lines 213-247), entered after the header check. -/
def fetchStreamPhase (limit ms : Nat) (extract : List Char → List Char)
    (events : List ChunkEvent) : FetchOut :=
  match readStream ms events 0 [] with
  | .tooLarge _ rest => ⟨errExceeded ms, true, events.length - rest.length⟩
  | .decodeFail rest => ⟨errDecode, true, events.length - rest.length⟩
  | .transportFail rest => ⟨errTransport, true, events.length - rest.length⟩
  | .body chunks => ⟨truncateContent limit (extract chunks.flatten), true, events.length⟩

/-- The function `fetch_url_content`, translated from the source: re-validate safety and
return the fixed error string without touching the network if unsafe;
surface transport / unexpected exceptions as their fixed strings; reject a
declared `Content-Length` above `ms` before reading any body event;
otherwise stream the body and extract/truncate the text. -/
def fetch_url_content (limit ms : Nat) (env : FetchEnv) : FetchOut :=
  if !env.safe then ⟨errUnsafe, false, 0⟩
  else
    match env.http with
    | .transportError => ⟨errTransport, true, 0⟩
    | .unexpectedError => ⟨errUnexpected, true, 0⟩
    | .ok contentLength? events =>
      match contentLength? with
      | some cl =>
        if ms < cl then ⟨errTooLarge cl ms, true, 0⟩
        else fetchStreamPhase limit ms env.extract events
      | none => fetchStreamPhase limit ms env.extract events

end BrsearchMCP

namespace BrsearchMCP

/-! ### `brave_search` (server_fastmcp.py lines 256-318)

The upstream search API is an oracle.  The raw upstream results carry
optional fields, reflecting `result.get(key, '')` defaults. -/

/-- An entry produced by `brave_search`: `{title, url, description}`. -/
structure SearchResult where
  title : List Char
  url : List Char
  description : List Char
deriving DecidableEq

/-- A raw upstream result dict, with each field possibly missing. -/
structure RawResult where
  title? : Option (List Char)
  url? : Option (List Char)
  description? : Option (List Char)

/-- Outcome of the HTTP call of `brave_search`: an `HTTPError` with a
status, a `RequestException`, any other exception, or a decoded JSON
payload (`hasWeb` models `'web' in data and 'results' in data['web']`). -/
inductive UpstreamOutcome where
  | httpError (status : Nat)
  | networkError
  | otherError
  | success (hasWeb : Bool) (raw : List RawResult)

/-- The string `"BRAVE_API_KEY environment variable is required"`, the `ValueError`
raised when no API key is configured. -/
def errNoApiKey : List Char := "BRAVE_API_KEY environment variable is required".data

/-- The function `brave_search`, translated from the source; the second component counts
the HTTP calls issued.  The configured API key is checked before the
throttle and before any network access; upstream failures are mapped to the
closed error taxonomy; on success only `{title, url, description}` are
extracted, missing fields defaulting to the empty string. -/
def brave_search (apiKey : List Char) (upstream : UpstreamOutcome) :
    Except (List Char) (List SearchResult) × Nat :=
  if apiKey.isEmpty then (.error errNoApiKey, 0)
  else
    match upstream with
    | .httpError status =>
      if status = 422 then
        (.error "Search request was rejected - please check your query".data, 1)
      else if status = 429 then
        (.error "Rate limit exceeded - please wait before making another request".data, 1)
      else (.error "Search service temporarily unavailable".data, 1)
    | .networkError => (.error "Network error occurred during search".data, 1)
    | .otherError => (.error "An unexpected error occurred during search".data, 1)
    | .success hasWeb raw =>
      if hasWeb then
        (.ok (raw.map (fun r =>
          ⟨r.title?.getD [], r.url?.getD [], r.description?.getD []⟩)), 1)
      else (.ok [], 1)

/-! ### The rate-limit throttle (server_fastmcp.py lines 265-273)

Time is modelled by rationals, sleeps are exact, and the timestamp written
to `last_brave_request[0]` after the sleep is the wake-up instant; the
outbound HTTP call of an invocation starts at that instant.  Because the
critical section runs under `rate_limit_lock`, concurrent invocations are
serialized: invocation `i+1` reads `time.time()` some delay `d ≥ 0` after
invocation `i` finished its critical section.  A trace is therefore
determined by the list of these delays. -/

/-- One pass through the throttling critical section: given the stored
timestamp `last` and the current clock reading `now`, the time at which the
invocation stops sleeping and proceeds to its outbound call (also the new
stored timestamp). -/
def throttleWake (minInterval last now : ℚ) : ℚ :=
  if now - last < minInterval then now + (minInterval - (now - last)) else now

/-- Wake-up instants of a serialized sequence of throttled invocations,
`ds` listing each invocation's delay between the previous critical-section
exit and its own clock reading. -/
def throttleTrace (minInterval : ℚ) : ℚ → List ℚ → List ℚ
  | _, [] => []
  | last, d :: ds =>
    throttleWake minInterval last (last + d) ::
      throttleTrace minInterval (throttleWake minInterval last (last + d)) ds

/-! ### `brave_search_and_fetch` (server_fastmcp.py lines 390-471)

The search client and the content fetcher are oracles (`search` is keyed by
the requested result count so that the count passed to it is observable;
`none` models `brave_search` raising). -/

/-- The loop state/output of the result-iteration loop: the response parts
accumulated so far (reversed), the `fetched_count` counter, and the urls
passed to `fetch_url_content` so far (reversed). -/
structure LoopOut where
  partsRev : List (List Char)
  count : Nat
  urlsRev : List (List Char)
deriving DecidableEq

/-- The marker `"... [Truncated]"`, the per-result truncation marker. -/
def resultTruncMarker : List Char := "... [Truncated]".data

/-- The `for result in search_results` loop (lines 424-456), translated
from the source: stop when `fetched_count` reaches `max_results`; emit the
numbered title / URL / description lines; results with a URL get their
fetched content (truncated to `CONTENT_LENGTH_LIMIT // max_results`) and
increment the counter, results without a URL emit `No URL available` and do
not; a blank spacing line ends each block. -/
def searchFetchLoop (fetch : List Char → List Char) (limit maxResults : Nat) :
    List SearchResult → Nat → List (List Char) → List (List Char) → LoopOut
  | [], count, partsRev, urlsRev => ⟨partsRev, count, urlsRev⟩
  | r :: rest, count, partsRev, urlsRev =>
    if maxResults ≤ count then ⟨partsRev, count, urlsRev⟩
    else
      let headerRev :=
        ("   Description: ".data ++ r.description) ::
        ("   URL: ".data ++ r.url) ::
        ((Nat.repr (count + 1)).data ++ ". ".data ++ r.title) :: partsRev
      if r.url.isEmpty then
        searchFetchLoop fetch limit maxResults rest count
          ([] :: "   Content: No URL available".data :: headerRev) urlsRev
      else
        let content := fetch r.url
        let maxContentPerResult := limit / maxResults
        let content2 :=
          if maxContentPerResult < content.length then
            content.take maxContentPerResult ++ resultTruncMarker
          else content
        searchFetchLoop fetch limit maxResults rest (count + 1)
          ([] :: ("   Content: ".data ++ content2) :: headerRev) (r.url :: urlsRev)

/-- Observable outcome of `brave_search_and_fetch`: the returned report, the
result count requested from `brave_search` (`none` if no search call was
made), the individual `response_parts` lines, the urls fetched in order,
and the final `fetched_count`. -/
structure OrchOut where
  report : List Char
  requestedCount : Option Nat
  parts : List (List Char)
  fetchedUrls : List (List Char)
  fetchedCount : Nat

/-- The function `brave_search_and_fetch`, translated from the source: sanitize the
query and reject if empty; clamp `max_results` to `[1, 10]`; request twice
the clamp from the search client; handle the empty-result and raising cases;
run the result loop; join the parts with newlines and truncate the whole
report to `CONTENT_LENGTH_LIMIT` plus marker if needed. -/
def brave_search_and_fetch (limit : Nat) (search : Nat → Option (List SearchResult))
    (fetch : List Char → List Char) (query : List Char) (max_results : Int) : OrchOut :=
  let q := sanitize_query query
  if q.isEmpty then ⟨"Error: Invalid or empty search query".data, none, [], [], 0⟩
  else
    let m : Nat := (max 1 (min 10 max_results)).toNat
    let requested := m * 2
    match search requested with
    | none => ⟨"Error: Search operation failed".data, some requested, [], [], 0⟩
    | some results =>
      if results.isEmpty then
        ⟨"No search results found for query: ".data ++ q, some requested, [], [], 0⟩
      else
        let l := searchFetchLoop fetch limit m results 0 [] []
        let parts := ("Search Results for: ".data ++ q) ::
          List.replicate 50 '=' :: [] :: l.partsRev.reverse
        let finalResponse := List.intercalate "\n".data parts
        let finalResponse2 :=
          if limit < finalResponse.length then
            finalResponse.take limit ++ "... [Response truncated]".data
          else finalResponse
        ⟨finalResponse2, some requested, parts, l.urlsRev.reverse, l.count⟩

/-! ### `fetch_page_links` (server_fastmcp.py lines 336-388)

The claims concern the link-selection stage (lines 371-381); the anchor
hrefs extracted by BeautifulSoup (already restricted to anchors whose
`href` attribute is truthy, i.e. non-empty) are the oracle input. -/

/-- The retention test of line 376:
`link.startswith(('http://', 'https://', '/'))`. -/
def valid_link (l : List Char) : Bool :=
  startsWithL l "http://".data || startsWithL l "https://".data || startsWithL l "/".data

/-- Observable outcome of the link stage of `fetch_page_links`: the links
shown, the total count stated in the header, and the returned text. -/
structure LinksOut where
  shown : List (List Char)
  totalCount : Nat
  text : List Char

/-- Lines 373-381 of `fetch_page_links`: filter the hrefs to absolute
`http(s)` or root-relative links, show the first 100, and format the reply
naming `len(valid_links)` as the total. -/
def fetch_page_links (url : List Char) (hrefs : List (List Char)) : LinksOut :=
  let validLinks := hrefs.filter valid_link
  let shown := validLinks.take 100
  let linksText := List.intercalate "\n".data (shown.map (fun l => "- ".data ++ l))
  ⟨shown, validLinks.length,
    "Links found on ".data ++ url ++ " (".data ++ (Nat.repr validLinks.length).data
      ++ " total, showing first 100):\n\n".data ++ linksText⟩

end BrsearchMCP

namespace BrsearchMCP

/-! ### Helper lemmas -/

theorem startsWithL_append (pat : List Char) :
    ∀ a b : List Char, startsWithL a pat = true → startsWithL (a ++ b) pat = true := by
  induction pat with
  | nil => intro a b _; cases a <;> simp [startsWithL]
  | cons p ps ih =>
    intro a b h
    cases a with
    | nil => simp [startsWithL] at h
    | cons c cs =>
      simp only [startsWithL, Bool.and_eq_true] at h
      simpa [startsWithL, h.1] using ih cs b h.2

theorem hasSub_append_left (a b pat : List Char) (h : hasSub a pat = true) :
    hasSub (a ++ b) pat = true := by
  induction a with
  | nil =>
    cases pat with
    | nil => cases b <;> simp [hasSub]
    | cons p ps => simp [hasSub] at h
  | cons c cs ih =>
    cases pat with
    | nil => simp [hasSub]
    | cons p ps =>
      simp only [hasSub, Bool.or_eq_true] at h
      rcases h with h | h
      · simp only [List.cons_append, hasSub, Bool.or_eq_true]
        exact Or.inl (startsWithL_append _ _ _ h)
      · simp only [List.cons_append, hasSub, Bool.or_eq_true]
        exact Or.inr (ih h)

/-! ### C2 -/

/-- C2: counterexample.  The claim says the output of `sanitize_query`
contains no blocklisted substring case-insensitively, in particular for any
query containing `<script>alert(1)</script>`.  The input
`<scr<scriptipt<script>alert(1)</script>` contains
`<script>alert(1)</script>`, yet its sanitized output still contains
`<script`: the single left-to-right deletion pass joins the fragments
`<scr` and `ipt` into a fresh occurrence. -/
theorem C2_sanitize_query_counterexample :
    hasSub "<scr<scriptipt<script>alert(1)</script>".data "<script>alert(1)</script>".data
        = true ∧
    hasSub (lowerStr (sanitize_query "<scr<scriptipt<script>alert(1)</script>".data))
        "<script".data = true := by
  decide

/-- C2 (amended): `sanitize_query` deletes, in one case-sensitive
left-to-right pass per pattern, the occurrences of each blocklisted pattern
present in the lowercased input, so the case-insensitive absence guarantee
does not hold for every input; it does hold for the exact query
`<script>alert(1)</script>`, whose output `>alert(1)</script>` contains no
blocklisted substring case-insensitively. -/
theorem C2_sanitize_query_amended :
    sanitize_query "<script>alert(1)</script>".data = ">alert(1)</script>".data ∧
    dangerous_patterns.all
      (fun pat => !(hasSub (lowerStr (sanitize_query "<script>alert(1)</script>".data)) pat))
      = true := by
  decide

/-! ### C8 -/

/-- C8: for every query/upstream behaviour, if the configured API key is
empty then `brave_search` fails with the configuration error
(`ValueError("BRAVE_API_KEY environment variable is required")`) and issues
no HTTP call. -/
theorem C8_brave_search_requires_key (apiKey : List Char) (upstream : UpstreamOutcome)
    (h : apiKey = []) :
    brave_search apiKey upstream = (.error errNoApiKey, 0) := by
  subst h
  rfl

/-- C8 witness: the configuration failure at the empty key with a concrete
upstream behaviour. -/
theorem C8_brave_search_requires_key_witness :
    brave_search [] .networkError = (.error errNoApiKey, 0) :=
  C8_brave_search_requires_key [] .networkError rfl

/-! ### C9 -/

/-- C9: for every fetched page, `fetch_page_links` shows at most 100 links,
each shown link starts with `http://`, `https://` or `/`, the shown links
are a subsequence of the page's hrefs (page order preserved), the stated
total is the number of retained links before the 100-cap truncation, and
that total appears in the returned header text. -/
theorem C9_fetch_page_links_bounds (url : List Char) (hrefs : List (List Char)) :
    (fetch_page_links url hrefs).shown.length ≤ 100 ∧
    (∀ l ∈ (fetch_page_links url hrefs).shown, valid_link l = true) ∧
    (fetch_page_links url hrefs).shown.Sublist hrefs ∧
    (fetch_page_links url hrefs).totalCount = hrefs.countP valid_link ∧
    ∃ pre post, (fetch_page_links url hrefs).text
      = pre ++ (Nat.repr (hrefs.countP valid_link)).data ++ post := by
  refine ⟨?_, ?_, ?_, ?_, ?_⟩
  · simp only [fetch_page_links, List.length_take]
    exact min_le_left _ _
  · intro l hl
    simp only [fetch_page_links] at hl
    exact List.of_mem_filter (List.mem_of_mem_take hl)
  · exact (List.take_sublist _ _).trans (List.filter_sublist _)
  · simp [fetch_page_links, List.countP_eq_length_filter]
  · refine ⟨"Links found on ".data ++ url ++ " (".data, ?_, ?_⟩
    · exact " total, showing first 100):\n\n".data ++
        List.intercalate "\n".data
          (((hrefs.filter valid_link).take 100).map (fun l => "- ".data ++ l))
    · simp [fetch_page_links, List.countP_eq_length_filter, List.append_assoc]

/-- C9 witness: the bounds evaluated on a concrete page with one retained
and one discarded href. -/
theorem C9_fetch_page_links_bounds_witness :
    (fetch_page_links "http://e.com".data ["/a".data, "ftp://b".data]).shown.length ≤ 100 ∧
    (∀ l ∈ (fetch_page_links "http://e.com".data ["/a".data, "ftp://b".data]).shown,
      valid_link l = true) ∧
    (fetch_page_links "http://e.com".data ["/a".data, "ftp://b".data]).shown.Sublist
      ["/a".data, "ftp://b".data] ∧
    (fetch_page_links "http://e.com".data ["/a".data, "ftp://b".data]).totalCount
      = (["/a".data, "ftp://b".data] : List (List Char)).countP valid_link ∧
    ∃ pre post, (fetch_page_links "http://e.com".data ["/a".data, "ftp://b".data]).text
      = pre ++ (Nat.repr ((["/a".data, "ftp://b".data] : List (List Char)).countP
          valid_link)).data ++ post :=
  C9_fetch_page_links_bounds "http://e.com".data ["/a".data, "ftp://b".data]

/-! ### C10 -/

/-- C10: on a search-results list whose first result has an empty URL and
whose second has a fetchable URL, with `max_results = 1`,
`brave_search_and_fetch` emits two entry blocks both numbered `1.` (the
empty-URL result is labelled with `fetched_count + 1` without incrementing
`fetched_count`), i.e. more than `max_results` numbered entries, two of
them bearing the same number. -/
theorem C10_duplicate_numbering :
    "1. A".data ∈ (brave_search_and_fetch 5000
        (fun _ => some [⟨"A".data, [], "d".data⟩, ⟨"B".data, "http://x".data, "d".data⟩])
        (fun _ => "C".data) "q".data 1).parts ∧
    "1. B".data ∈ (brave_search_and_fetch 5000
        (fun _ => some [⟨"A".data, [], "d".data⟩, ⟨"B".data, "http://x".data, "d".data⟩])
        (fun _ => "C".data) "q".data 1).parts ∧
    (brave_search_and_fetch 5000
        (fun _ => some [⟨"A".data, [], "d".data⟩, ⟨"B".data, "http://x".data, "d".data⟩])
        (fun _ => "C".data) "q".data 1).fetchedCount = 1 ∧
    1 < ((brave_search_and_fetch 5000
        (fun _ => some [⟨"A".data, [], "d".data⟩, ⟨"B".data, "http://x".data, "d".data⟩])
        (fun _ => "C".data) "q".data 1).parts.countP
          (fun l => startsWithL l "1. ".data)) := by
  decide

end BrsearchMCP

namespace BrsearchMCP

/-! ### C1 -/

/-- C1: complete characterization of `is_safe_url`, from which every
rejection clause of the claim follows: the result is `true` exactly when the
URL parsed, the scheme is exactly `http` or `https`, a hostname is present
and non-empty, its lowercasing is off the blocklist, and it resolves to an
address that is neither private nor loopback nor link-local — hence the
function returns `false` on any parse failure, disallowed scheme, absent or
blocklisted hostname, resolution failure, or private/loopback/link-local
resolved address. -/
theorem C1_is_safe_url_characterization (parsed? : Option ParsedUrl)
    (resolve : List Char → ResolveOutcome) :
    is_safe_url parsed? resolve = true ↔
      ∃ p h ip, parsed? = some p ∧ p.hostname = some h ∧ resolve h = .resolved ip ∧
        p.scheme ∈ ["http".data, "https".data] ∧ h ≠ [] ∧
        lowerStr h ∉ blocked_hostnames ∧
        ip.isPrivate = false ∧ ip.isLoopback = false ∧ ip.isLinkLocal = false := by
  cases parsed? with
  | none => simp [is_safe_url]
  | some p =>
    cases hh : p.hostname with
    | none => simp [is_safe_url, hh]
    | some h =>
      by_cases hs : p.scheme ∈ ["http".data, "https".data]
      · by_cases he : h = []
        · simp [is_safe_url, hh, hs, he]
        · by_cases hb : lowerStr h ∈ blocked_hostnames
          · simp [is_safe_url, hh, hs, he, hb]
          · cases hr : resolve h with
            | dnsFailure => simp [is_safe_url, hh, hs, he, hb, hr]
            | badIp => simp [is_safe_url, hh, hs, he, hb, hr]
            | resolved ip =>
              have hL : is_safe_url (some p) resolve
                  = !(ip.isPrivate || ip.isLoopback || ip.isLinkLocal) := by
                simp [is_safe_url, hh, hs, he, hb, hr]
              rw [hL]
              constructor
              · intro hip
                simp only [Bool.not_eq_true', Bool.or_eq_false_iff] at hip
                exact ⟨p, h, ip, rfl, hh, hr, hs, he, hb, hip.1.1, hip.1.2, hip.2⟩
              · rintro ⟨p', h', ip', hp', hh', hr', -, -, -, h1, h2, h3⟩
                cases hp'
                rw [hh] at hh'
                cases hh'
                rw [hr] at hr'
                cases hr'
                simp [h1, h2, h3]
      · have hL : is_safe_url (some p) resolve = false := by
          simp [is_safe_url, hs]
        rw [hL]
        simp only [Bool.false_eq_true, false_iff]
        rintro ⟨p', h', ip', hp', hh', hr', hsc, -⟩
        cases hp'
        exact hs hsc

end BrsearchMCP

namespace BrsearchMCP

/-- C1 witness: the characterization evaluated at a concrete accepted URL
(`http` scheme, hostname `example.com`, resolving to a public address). -/
theorem C1_is_safe_url_characterization_witness :
    is_safe_url (some ⟨"http".data, some "example.com".data⟩)
      (fun _ => .resolved ⟨false, false, false⟩) = true :=
  (C1_is_safe_url_characterization (some ⟨"http".data, some "example.com".data⟩)
      (fun _ => .resolved ⟨false, false, false⟩)).2
    ⟨⟨"http".data, some "example.com".data⟩, "example.com".data, ⟨false, false, false⟩,
      rfl, rfl, rfl, by decide, by decide, by decide, rfl, rfl, rfl⟩

/-! ### C3 -/

/-- C3: `fetch_url_content` is total from its caller's perspective: for
every environment it returns a string, which on the rejection path is
exactly `"Error: URL not allowed for security reasons"` with no network
call and no body event consumed, and in general is either one of the fixed
error strings or the extracted (possibly truncated) text of some body. -/
theorem C3_fetch_url_content_total (limit ms : Nat) (env : FetchEnv) :
    (env.safe = false →
      fetch_url_content limit ms env = ⟨errUnsafe, false, 0⟩) ∧
    ((fetch_url_content limit ms env).result = errUnsafe ∨
     (fetch_url_content limit ms env).result = errTransport ∨
     (fetch_url_content limit ms env).result = errUnexpected ∨
     (∃ cl, (fetch_url_content limit ms env).result = errTooLarge cl ms) ∨
     (fetch_url_content limit ms env).result = errExceeded ms ∨
     (fetch_url_content limit ms env).result = errDecode ∨
     (∃ body, (fetch_url_content limit ms env).result
        = truncateContent limit (env.extract body))) := by
  constructor
  · intro h
    simp [fetch_url_content, h]
  · by_cases hsafe : env.safe
    · cases henv : env.http with
      | transportError => simp [fetch_url_content, hsafe, henv]
      | unexpectedError => simp [fetch_url_content, hsafe, henv]
      | ok cl? events =>
        have hphase : ∀ hout : FetchOut, hout = fetchStreamPhase limit ms env.extract events →
            hout.result = errExceeded ms ∨ hout.result = errDecode ∨
            hout.result = errTransport ∨
            ∃ body, hout.result = truncateContent limit (env.extract body) := by
          intro hout hdef
          rw [hdef]
          unfold fetchStreamPhase
          cases hr : readStream ms events 0 [] with
          | tooLarge k rest => exact Or.inl rfl
          | decodeFail rest => exact Or.inr (Or.inl rfl)
          | transportFail rest => exact Or.inr (Or.inr (Or.inl rfl))
          | body chunks => exact Or.inr (Or.inr (Or.inr ⟨chunks.flatten, rfl⟩))
        cases cl? with
        | none =>
          have heq : fetch_url_content limit ms env
              = fetchStreamPhase limit ms env.extract events := by
            simp [fetch_url_content, hsafe, henv]
          rcases hphase _ heq with h | h | h | h
          · exact Or.inr (Or.inr (Or.inr (Or.inr (Or.inl h))))
          · exact Or.inr (Or.inr (Or.inr (Or.inr (Or.inr (Or.inl h)))))
          · exact Or.inr (Or.inl h)
          · exact Or.inr (Or.inr (Or.inr (Or.inr (Or.inr (Or.inr h)))))
        | some cl =>
          by_cases hcl : ms < cl
          · have heq : fetch_url_content limit ms env = ⟨errTooLarge cl ms, true, 0⟩ := by
              simp [fetch_url_content, hsafe, henv, hcl]
            rw [heq]
            exact Or.inr (Or.inr (Or.inr (Or.inl ⟨cl, rfl⟩)))
          · have heq : fetch_url_content limit ms env
                = fetchStreamPhase limit ms env.extract events := by
              simp [fetch_url_content, hsafe, henv, hcl]
            rcases hphase _ heq with h | h | h | h
            · exact Or.inr (Or.inr (Or.inr (Or.inr (Or.inl h))))
            · exact Or.inr (Or.inr (Or.inr (Or.inr (Or.inr (Or.inl h)))))
            · exact Or.inr (Or.inl h)
            · exact Or.inr (Or.inr (Or.inr (Or.inr (Or.inr (Or.inr h)))))
    · have h : env.safe = false := by
        simpa using hsafe
      simp [fetch_url_content, h]

/-- C3 witness: the rejection path at a concrete unsafe environment returns
the fixed security error string with no network call. -/
theorem C3_fetch_url_content_total_witness :
    fetch_url_content 5000 10485760 ⟨false, .transportError, id⟩
      = ⟨errUnsafe, false, 0⟩ :=
  (C3_fetch_url_content_total 5000 10485760 ⟨false, .transportError, id⟩).1 rfl

end BrsearchMCP

namespace BrsearchMCP

/-! ### C4 -/

/-- The streaming loop aborts at exactly the first chunk that pushes the
cumulative size over the cap, retaining only the under-cap portion read so
far and leaving the remainder of the stream unconsumed. -/
theorem readStream_tooLarge_spec (ms : Nat) :
    ∀ (events : List ChunkEvent) (total : Nat) (kept : List (List Char))
      (k : Nat) (rest : List ChunkEvent),
      readStream ms events total kept = .tooLarge k rest → total ≤ ms →
      k ≤ ms ∧ ∃ pre c, events = pre ++ .chunk c :: rest ∧
        k = total + chunkSum pre ∧ ms < k + c.length := by
  intro events
  induction events with
  | nil =>
    intro total kept k rest h htot
    simp [readStream] at h
  | cons e rest' ih =>
    intro total kept k rest h htot
    cases e with
    | decodeFailure => simp [readStream] at h
    | transportFailure => simp [readStream] at h
    | chunk c =>
      rw [readStream] at h
      by_cases hc : c.isEmpty
      · rw [if_pos hc] at h
        obtain ⟨hk, pre, c', heq, hsum, hov⟩ := ih total kept k rest h htot
        have hc0 : c.length = 0 := by
          simpa [List.isEmpty_iff] using hc
        refine ⟨hk, .chunk c :: pre, c', by simp [heq], ?_, hov⟩
        simp [chunkSum, evLen, hc0] at hsum ⊢
        omega
      · rw [if_neg hc] at h
        by_cases hov : ms < total + c.length
        · rw [if_pos hov] at h
          have h1 : total = k ∧ rest' = rest := by
            simpa using h
          obtain ⟨rfl, rfl⟩ := h1
          exact ⟨htot, [], c, by simp, by simp [chunkSum], hov⟩
        · rw [if_neg hov] at h
          have htot' : total + c.length ≤ ms := Nat.le_of_not_lt hov
          obtain ⟨hk, pre, c', heq, hsum, hov'⟩ := ih (total + c.length) (c :: kept) k rest h htot'
          refine ⟨hk, .chunk c :: pre, c', by simp [heq], ?_, hov'⟩
          simp [chunkSum, evLen] at hsum ⊢
          omega

/-- C4: the response-size cap never buffers an over-limit body.  If the
declared `Content-Length` exceeds the cap, the fixed "too large" error
string is returned with zero body events consumed; if the cumulative
streamed size first exceeds the cap at some chunk, the function returns the
size-limit error string, the retained buffer at that instant is still
within the cap, and the stream beyond the offending chunk is never pulled. -/
theorem C4_fetch_size_cap (limit ms cl : Nat) (events : List ChunkEvent)
    (extract : List Char → List Char) :
    (ms < cl →
      fetch_url_content limit ms ⟨true, .ok (some cl) events, extract⟩
        = ⟨errTooLarge cl ms, true, 0⟩ ∧
      hasSub (errTooLarge cl ms) "too large".data = true) ∧
    (∀ k rest, cl ≤ ms → readStream ms events 0 [] = .tooLarge k rest →
      (fetch_url_content limit ms ⟨true, .ok (some cl) events, extract⟩).result
        = errExceeded ms ∧
      (fetch_url_content limit ms ⟨true, .ok (some cl) events, extract⟩).eventsConsumed
        = events.length - rest.length ∧
      k ≤ ms ∧ ∃ pre c, events = pre ++ .chunk c :: rest ∧
        k = chunkSum pre ∧ ms < k + c.length) := by
  constructor
  · intro hcl
    constructor
    · simp [fetch_url_content, hcl]
    · have hpre : hasSub "Error: Content too large (".data "too large".data = true := by
        decide
      exact hasSub_append_left _ _ _ hpre
  · intro k rest hcl hr
    have hnl : ¬ ms < cl := Nat.not_lt.2 hcl
    have heq : fetch_url_content limit ms ⟨true, .ok (some cl) events, extract⟩
        = fetchStreamPhase limit ms extract events := by
      simp [fetch_url_content, hnl]
    obtain ⟨hk, pre, c, hpre, hsum, hov⟩ :=
      readStream_tooLarge_spec ms events 0 [] k rest hr (Nat.zero_le ms)
    refine ⟨?_, ?_, hk, pre, c, hpre, by simpa using hsum, hov⟩
    · rw [heq]
      unfold fetchStreamPhase
      rw [hr]
    · rw [heq]
      unfold fetchStreamPhase
      rw [hr]

/-- C4 witness: the header rejection at `Content-Length = 6 > 5`, and the
mid-stream abort where a single 6-character chunk exceeds the cap 5 with
nothing retained. -/
theorem C4_fetch_size_cap_witness :
    (fetch_url_content 0 5 ⟨true, .ok (some 6) [], id⟩ = ⟨errTooLarge 6 5, true, 0⟩ ∧
      hasSub (errTooLarge 6 5) "too large".data = true) ∧
    ((fetch_url_content 0 5 ⟨true, .ok (some 3) [.chunk "abcdef".data], id⟩).result
        = errExceeded 5 ∧
      (fetch_url_content 0 5 ⟨true, .ok (some 3) [.chunk "abcdef".data], id⟩).eventsConsumed
        = ([.chunk "abcdef".data] : List ChunkEvent).length - ([] : List ChunkEvent).length ∧
      0 ≤ 5 ∧ ∃ pre c, ([.chunk "abcdef".data] : List ChunkEvent)
          = pre ++ .chunk c :: ([] : List ChunkEvent) ∧
        0 = chunkSum pre ∧ 5 < 0 + c.length) :=
  ⟨(C4_fetch_size_cap 0 5 6 [] id).1 (by decide),
   (C4_fetch_size_cap 0 5 3 [.chunk "abcdef".data] id).2 0 [] (by decide) (by decide)⟩

end BrsearchMCP

namespace BrsearchMCP

/-! ### C5 -/

/-- C5: on the success path (safe URL, acceptable `Content-Length`, body
read to completion), whenever the extracted text exceeds the limit the
returned text is exactly the first `limit` characters followed by the
truncation marker, and in every case the returned success text has length
at most `limit` plus the marker's length. -/
theorem C5_content_truncation (limit ms : Nat) (cl? : Option Nat)
    (events : List ChunkEvent) (extract : List Char → List Char)
    (chunks : List (List Char))
    (hcl : ∀ cl, cl? = some cl → cl ≤ ms)
    (hrs : readStream ms events 0 [] = .body chunks) :
    (limit < (extract chunks.flatten).length →
      (fetch_url_content limit ms ⟨true, .ok cl? events, extract⟩).result
        = (extract chunks.flatten).take limit ++ truncationMarker) ∧
    (fetch_url_content limit ms ⟨true, .ok cl? events, extract⟩).result.length
      ≤ limit + truncationMarker.length := by
  have heq : fetch_url_content limit ms ⟨true, .ok cl? events, extract⟩
      = fetchStreamPhase limit ms extract events := by
    cases cl? with
    | none => simp [fetch_url_content]
    | some cl =>
      have h : ¬ ms < cl := Nat.not_lt.2 (hcl cl rfl)
      simp [fetch_url_content, h]
  have hres : (fetch_url_content limit ms ⟨true, .ok cl? events, extract⟩).result
      = truncateContent limit (extract chunks.flatten) := by
    rw [heq]
    unfold fetchStreamPhase
    rw [hrs]
  rw [hres]
  constructor
  · intro hlen
    simp [truncateContent, hlen]
  · unfold truncateContent
    by_cases hlen : limit < (extract chunks.flatten).length
    · rw [if_pos hlen]
      simp only [List.length_append, List.length_take]
      omega
    · rw [if_neg hlen]
      omega

/-- C5 witness: a two-character extracted text against limit 1 is truncated
to its first character plus the marker, within the length bound. -/
theorem C5_content_truncation_witness :
    (1 < (id ((["ab".data] : List (List Char)).flatten : List Char)).length →
      (fetch_url_content 1 10 ⟨true, .ok none [.chunk "ab".data], id⟩).result
        = (id ((["ab".data] : List (List Char)).flatten : List Char)).take 1
            ++ truncationMarker) ∧
    (fetch_url_content 1 10 ⟨true, .ok none [.chunk "ab".data], id⟩).result.length
      ≤ 1 + truncationMarker.length :=
  C5_content_truncation 1 10 none [.chunk "ab".data] id ["ab".data]
    (fun cl h => Option.noConfusion h) (by decide)

end BrsearchMCP

namespace BrsearchMCP

/-! ### C6 -/

/-- One throttled critical section finishes no earlier than `minInterval`
after the previously stored timestamp, provided its clock reading is not
earlier than that timestamp. -/
theorem throttleWake_lower_bound (minInterval last d : ℚ) :
    last + minInterval ≤ throttleWake minInterval last (last + d) := by
  unfold throttleWake
  split
  · have h : last + d + (minInterval - (last + d - last)) = last + minInterval := by
      ring
    exact le_of_eq h.symm
  · rename_i hlt
    have h : minInterval ≤ d := by
      have h' : last + d - last = d := by ring
      rw [h'] at hlt
      exact le_of_not_lt hlt
    linarith

/-- C6: the throttle guarantees a global minimum spacing.  For every
serialized trace of invocations of the critical section of `brave_search`
(each invocation reading the clock a non-negative delay after the previous
one released the lock), consecutive outbound-call start instants are at
least `minInterval` apart, regardless of how many callers contend. -/
theorem C6_throttle_min_spacing (minInterval last : ℚ) (ds : List ℚ)
    (hd : ∀ d ∈ ds, 0 ≤ d) :
    List.Chain' (fun a b => a + minInterval ≤ b) (throttleTrace minInterval last ds) := by
  induction ds generalizing last with
  | nil => simp [throttleTrace]
  | cons d ds ih =>
    rw [throttleTrace]
    rw [List.chain'_cons']
    constructor
    · intro b hb
      cases ds with
      | nil => simp [throttleTrace] at hb
      | cons d' ds' =>
        rw [throttleTrace] at hb
        simp only [List.head?_cons, Option.mem_some_iff] at hb
        subst hb
        exact throttleWake_lower_bound minInterval _ d'
    · exact ih _ (fun d' h' => hd d' (List.mem_cons_of_mem d h'))

/-- C6 witness: two invocations with `minInterval = 1`, the second arriving
immediately (delay 0) and a third arriving 2 later; the wake instants are
spaced at least 1 apart. -/
theorem C6_throttle_min_spacing_witness :
    List.Chain' (fun a b => a + (1 : ℚ) ≤ b) (throttleTrace 1 0 [0, 0, 2]) :=
  C6_throttle_min_spacing 1 0 [0, 0, 2] (by decide)

/-! ### C7 -/

/-- The urls fetched by the result loop are the urls of the non-empty-url
results, in upstream order, up to the remaining quota. -/
theorem searchFetchLoop_urls (fetch : List Char → List Char) (limit M : Nat) :
    ∀ (results : List SearchResult) (count : Nat) (partsRev urlsRev : List (List Char)),
      (searchFetchLoop fetch limit M results count partsRev urlsRev).urlsRev
        = (((results.filter (fun r => !r.url.isEmpty)).map (fun r => r.url)).take
            (M - count)).reverse ++ urlsRev := by
  intro results
  induction results with
  | nil =>
    intro count partsRev urlsRev
    simp [searchFetchLoop]
  | cons r rest ih =>
    intro count partsRev urlsRev
    rw [searchFetchLoop]
    by_cases hm : M ≤ count
    · rw [if_pos hm]
      simp [Nat.sub_eq_zero_of_le hm]
    · rw [if_neg hm]
      by_cases hu : r.url.isEmpty
      · simp only [hu, if_pos]
        rw [ih]
        simp [List.filter_cons, hu]
      · simp only [hu, if_neg, Bool.false_eq_true, not_false_iff]
        rw [ih]
        have hsub : M - count = (M - (count + 1)) + 1 := by omega
        simp [List.filter_cons, hu, hsub, List.take_succ_cons]
  
/-- The final `fetched_count` of the result loop is the starting count plus
as many non-empty-url results as fit in the remaining quota. -/
theorem searchFetchLoop_count (fetch : List Char → List Char) (limit M : Nat) :
    ∀ (results : List SearchResult) (count : Nat) (partsRev urlsRev : List (List Char)),
      (searchFetchLoop fetch limit M results count partsRev urlsRev).count
        = count + min (M - count) (results.countP (fun r => !r.url.isEmpty)) := by
  intro results
  induction results with
  | nil =>
    intro count partsRev urlsRev
    simp [searchFetchLoop]
  | cons r rest ih =>
    intro count partsRev urlsRev
    rw [searchFetchLoop]
    by_cases hm : M ≤ count
    · rw [if_pos hm]
      simp [Nat.sub_eq_zero_of_le hm]
    · rw [if_neg hm]
      by_cases hu : r.url.isEmpty
      · simp only [hu, if_pos]
        rw [ih]
        simp [List.countP_cons, hu]
      · simp only [hu, if_neg, Bool.false_eq_true, not_false_iff]
        rw [ih]
        have hu' : r.url.isEmpty = false := by
          simpa using hu
        simp only [List.countP_cons, hu', Bool.not_false, if_true, ite_true]
        omega

end BrsearchMCP

namespace BrsearchMCP

/-- C7: with a non-empty sanitized query, `brave_search_and_fetch` clamps
`max_results` to `[1, 10]`, requests twice the clamped count from the
search client, and fetches exactly the urls of the non-empty-url results in
upstream order up to the clamped quota — a fetch that returns an error
string still occupies its slot, while a result with an empty url is skipped
without consuming quota. -/
theorem C7_orchestrator_quota (limit : Nat) (search : Nat → Option (List SearchResult))
    (fetch : List Char → List Char) (query : List Char) (max_results : Int)
    (results : List SearchResult)
    (hq : sanitize_query query ≠ [])
    (hs : search ((max 1 (min 10 max_results)).toNat * 2) = some results) :
    1 ≤ (max 1 (min 10 max_results)).toNat ∧ (max 1 (min 10 max_results)).toNat ≤ 10 ∧
    (brave_search_and_fetch limit search fetch query max_results).requestedCount
      = some ((max 1 (min 10 max_results)).toNat * 2) ∧
    (brave_search_and_fetch limit search fetch query max_results).fetchedUrls
      = ((results.filter (fun r => !r.url.isEmpty)).map (fun r => r.url)).take
          ((max 1 (min 10 max_results)).toNat) ∧
    (brave_search_and_fetch limit search fetch query max_results).fetchedCount
      = min ((max 1 (min 10 max_results)).toNat)
          (results.countP (fun r => !r.url.isEmpty)) := by
  have h1 : (1 : Int) ≤ max 1 (min 10 max_results) := le_max_left _ _
  have h2 : max 1 (min 10 max_results) ≤ 10 :=
    max_le (by norm_num) (min_le_left _ _)
  have hql : ¬ (sanitize_query query).isEmpty = true := by
    simpa [List.isEmpty_iff] using hq
  refine ⟨by omega, by omega, ?_⟩
  by_cases hres : results.isEmpty
  · have hnil : results = [] := List.isEmpty_iff.1 hres
    subst hnil
    simp [brave_search_and_fetch, hql, hs]
  · refine ⟨?_, ?_, ?_⟩
    · simp [brave_search_and_fetch, hql, hs, hres]
    · simp only [brave_search_and_fetch, hql, hs, hres, Bool.false_eq_true, if_false,
        ite_false]
      rw [searchFetchLoop_urls]
      simp
    · simp only [brave_search_and_fetch, hql, hs, hres, Bool.false_eq_true, if_false,
        ite_false]
      rw [searchFetchLoop_count]
      simp

/-- C7 witness: one search result with a fetchable url under `max_results = 3`
(clamped to 3, requesting 6): that single url is fetched and counted. -/
theorem C7_orchestrator_quota_witness :
    1 ≤ (max 1 (min 10 (3 : Int))).toNat ∧ (max 1 (min 10 (3 : Int))).toNat ≤ 10 ∧
    (brave_search_and_fetch 5000
        (fun _ => some [⟨"A".data, "http://a".data, "d".data⟩])
        (fun _ => "C".data) "q".data 3).requestedCount
      = some ((max 1 (min 10 (3 : Int))).toNat * 2) ∧
    (brave_search_and_fetch 5000
        (fun _ => some [⟨"A".data, "http://a".data, "d".data⟩])
        (fun _ => "C".data) "q".data 3).fetchedUrls
      = ((([⟨"A".data, "http://a".data, "d".data⟩] : List SearchResult).filter
            (fun r => !r.url.isEmpty)).map (fun r => r.url)).take
          ((max 1 (min 10 (3 : Int))).toNat) ∧
    (brave_search_and_fetch 5000
        (fun _ => some [⟨"A".data, "http://a".data, "d".data⟩])
        (fun _ => "C".data) "q".data 3).fetchedCount
      = min ((max 1 (min 10 (3 : Int))).toNat)
          (([⟨"A".data, "http://a".data, "d".data⟩] : List SearchResult).countP
            (fun r => !r.url.isEmpty)) :=
  C7_orchestrator_quota 5000 (fun _ => some [⟨"A".data, "http://a".data, "d".data⟩])
    (fun _ => "C".data) "q".data 3 [⟨"A".data, "http://a".data, "d".data⟩]
    (by decide) rfl

end BrsearchMCP
